import Mathlib

/-!
Verification development for the multi-account mailbox polling and
reply-automation subsystem of the repository.

The definitions below are a shallow embedding of the relevant Python source:

* `zoho_mail_handler.py` — the `ZohoMailHandler` class: the processed-message
  ledger (`_load_processed_message_ids` / `_save_processed_message_id`), the
  reply-subject rule inside `send_email`, and the main
  `process_unread_emails` loop;
* `models.py` — `DomainVerification` (SPF/DKIM/MX DNS checks) and
  `ZohoEmailAccount.verify_domain_setup`;
* `fastapi_backend.py` — the `/check_now` endpoint and the scheduler
  configuration (`job_defaults`, `max_instances = 1`).

External effects (IMAP/SMTP connections, the OpenAI call, DNS resolution,
exceptions raised by library calls) are modelled by explicit oracle records:
each place where the Python code performs a fallible external call gets a
field saying how that call turns out, and the Python `try/except` structure
is translated into the corresponding branching on those fields.  Strings are
Lean `String`s; where Python scans byte strings character by character
(`str.replace`, `startswith`, `in`) we work on `List Char`.
-/

/-! ### The reply-subject rule

`send_email` (zoho_mail_handler.py lines 276-278) computes
`clean_subject = subject.replace("Re: Re:", "Re:")`, and the caller in
`process_unread_emails` (line 365) passes `subject = f"Re: {message['subject']}"`.
-/

/-- The pattern `"Re: Re:"` as a character list. -/
def reReSub : List Char := ['R', 'e', ':', ' ', 'R', 'e', ':']

/-- Python `s.replace("Re: Re:", "Re:")`: scan left to right, replace each
non-overlapping occurrence of `"Re: Re:"` by `"Re:"` and continue scanning
after the replaced occurrence. -/
def replaceReRe : List Char → List Char
  | 'R' :: 'e' :: ':' :: ' ' :: 'R' :: 'e' :: ':' :: rest => 'R' :: 'e' :: ':' :: replaceReRe rest
  | c :: cs => c :: replaceReRe cs
  | [] => []

/-- The subject of the sent reply as a function of the original subject:
`f"Re: {subject}"` followed by `send_email`'s `replace("Re: Re:", "Re:")`. -/
def replySubject (subject : List Char) : List Char :=
  replaceReRe (['R', 'e', ':', ' '] ++ subject)

/-- Python `pat in s` (substring containment) on character lists. -/
def containsSub (pat : List Char) : List Char → Bool
  | [] => pat.isEmpty
  | c :: cs => pat.isPrefixOf (c :: cs) || containsSub pat cs

/-! ### Domain verification (models.py)

`DomainVerification.verify_spf_record`, `verify_dkim_record` and
`verify_mx_records` each wrap one `dns.resolver.resolve` call in
`try/except`, returning `False` when the resolution raises.  The DNS
resolver is modelled as an environment with one function per record type;
a raised exception is `Except.error ()`. -/

/-- The DNS resolver as seen by `DomainVerification`: `resolveTXT name`
models `dns.resolver.resolve(name, 'TXT')` (each answer is one rdata,
holding a list of byte strings, `rdata.strings`); `resolveMX name` models
`dns.resolver.resolve(name, 'MX')` (each answer contributes
`str(rdata.exchange)`). -/
structure DNSEnv where
  resolveTXT : String → Except Unit (List (List (List Char)))
  resolveMX : String → Except Unit (List (List Char))

/-- Inner loop of `verify_spf_record`: the first TXT string starting with
`"v=spf1"` decides the result for its rdata (`return` exits both loops). -/
def spfCheckStrings : List (List Char) → Option Bool
  | [] => none
  | t :: ts =>
      if List.isPrefixOf "v=spf1".data t then
        some (containsSub "include:zohomail.com".data t || containsSub "include:one.zoho.com".data t)
      else spfCheckStrings ts

/-- Outer loop of `verify_spf_record` over the TXT answers. -/
def spfFromAnswers : List (List (List Char)) → Bool
  | [] => false
  | r :: rs =>
      match spfCheckStrings r with
      | some b => b
      | none => spfFromAnswers rs

/-- `DomainVerification.verify_spf_record(domain)`: resolve TXT records for
the domain; a resolution failure is caught and yields `False`. -/
def verify_spf_record (env : DNSEnv) (domain : String) : Bool :=
  match env.resolveTXT domain with
  | Except.error _ => false
  | Except.ok answers => spfFromAnswers answers

/-- The DKIM query name `f"{selector}._domainkey.{domain}"`. -/
def dkimDomain (domain selector : String) : String :=
  selector ++ "._domainkey." ++ domain

/-- `DomainVerification.verify_dkim_record(domain, selector)`: resolve TXT at
the DKIM name and test `len(answers) > 0`; a resolution failure yields
`False`. -/
def verify_dkim_record (env : DNSEnv) (domain selector : String) : Bool :=
  match env.resolveTXT (dkimDomain domain selector) with
  | Except.error _ => false
  | Except.ok answers => decide (0 < answers.length)

/-- `DomainVerification.verify_mx_records(domain)`: resolve MX records and
test `any('zoho' in str(rdata.exchange).lower() ...)`; a resolution failure
yields `False`. -/
def verify_mx_records (env : DNSEnv) (domain : String) : Bool :=
  match env.resolveMX domain with
  | Except.error _ => false
  | Except.ok answers => answers.any (fun ex => containsSub "zoho".data (ex.map Char.toLower))

/-- The dictionary returned by `ZohoEmailAccount.verify_domain_setup`
(models.py lines 105-130), restricted to the three verification booleans
(`domain`, `verified` and `last_verified` carry no verification content). -/
structure DomainChecks where
  spf_valid : Bool
  dkim_valid : Bool
  mx_valid : Bool
deriving DecidableEq

/-- `ZohoEmailAccount.verify_domain_setup`: run the three sub-checks and
package the results. -/
def verify_domain_setup (env : DNSEnv) (domain selector : String) : DomainChecks :=
  { spf_valid := verify_spf_record env domain
    dkim_valid := verify_dkim_record env domain selector
    mx_valid := verify_mx_records env domain }

/-! ### The processed-message ledger (zoho_mail_handler.py lines 54-72)

`processed_messages.txt` is modelled as its list of lines (the trailing
newline written by `f.write(f"{message_id}\n")` is the line separator).
`_load_processed_message_ids` strips each line and collects the results
into the in-memory set `self.processed_message_ids`;
`_save_processed_message_id` appends one line to the file — and does not
touch the in-memory set. -/

/-- Python `str.strip()`: drop whitespace from both ends. -/
def pyStrip (s : String) : String :=
  String.mk (((s.data.dropWhile Char.isWhitespace).reverse.dropWhile Char.isWhitespace).reverse)

/-- `_load_processed_message_ids`: read every line of the ledger file,
stripped.  (The Python code collects them into a `set`; membership on the
returned list is the membership test of that set.) -/
def load_processed_message_ids (file : List String) : List String :=
  file.map pyStrip

/-- `_save_processed_message_id`: append one line holding the id to the
ledger file. -/
def save_processed_message_id (file : List String) (mid : String) : List String :=
  file ++ [mid]

/-! ### The mail-processing model (zoho_mail_handler.py lines 264-403)

`process_unread_emails` iterates over the accounts; per account it opens an
IMAP session, selects the inbox, searches `UNSEEN`, and runs the per-message
body of the loop for each hit.  Every fallible external call is an oracle
field below, and every Python `try/except` becomes the corresponding branch:

* `connect_imap` returning `None` → the account is skipped (`continue`);
* an exception in `select`/`search` → caught by the per-account `except`,
  `continue` — note: without closing the IMAP session;
* an exception in `fetch`/parsing → caught by the per-message `except`;
* `generate_response` → `Option String` (it catches its own exceptions and
  returns `None`); Python `if response:` is falsy for `None` and `""`;
* `send_email` → opens an SMTP session via `connect_smtp` (`None` on
  failure), sends, and `quit`s; an exception while sending is caught inside
  `send_email` which returns `False` — without `quit`ting the session;
* `mail.store(num, '+FLAGS', '\\Seen')` raising → caught by the per-message
  `except`, skipping both `_save_processed_message_id` and the
  `processed_emails.append`.

Session lifecycle is recorded in an event trace so that claims about
teardown are statements about the trace. -/

/-- One message in a mailbox.  `messageId` is `message.get('Message-ID', '')`;
`unread` is the mailbox's unseen flag (the `UNSEEN` search lists exactly the
messages with `unread = true`). -/
structure EmailMessage where
  messageId : String
  subject : String
  fromAddr : String
  body : String
  unread : Bool
deriving DecidableEq

/-- Oracle for the fallible calls made while handling one message. -/
structure MsgEnv where
  fetchRaises : Bool
  genResult : Option String
  smtpConnectOk : Bool
  sendRaises : Bool
  markReadRaises : Bool
deriving DecidableEq

/-- One element of the `processed_emails` result list (the dict built at
zoho_mail_handler.py lines 379-386, minus the wall-clock timestamp). -/
structure LogEntry where
  fromEmail : String
  toEmail : String
  subject : String
  responseSent : Bool
  messageId : String
deriving DecidableEq

/-- Session lifecycle events.  `accountStart` marks entry into the
per-account `try` block (the account is attempted). -/
inductive SessEvent where
  | accountStart (email : String)
  | imapOpen
  | imapClose
  | smtpOpen
  | smtpClose
deriving DecidableEq

/-- The handler state threaded through a run: the ledger file
(`processed_messages.txt`), the in-memory id set
(`self.processed_message_ids`), the accumulated `processed_emails` list and
the session-event trace. -/
structure RunState where
  ledgerFile : List String
  memSet : List String
  log : List LogEntry
  trace : List SessEvent
deriving DecidableEq

/-- The `ReplyLogEntry` built for a message (original subject, as the code
logs `message['subject']`, not the prefixed reply subject). -/
def mkEntry (m : EmailMessage) (acct : String) (sent : Bool) : LogEntry :=
  { fromEmail := m.fromAddr
    toEmail := acct
    subject := m.subject
    responseSent := sent
    messageId := m.messageId }

/-- `self._save_processed_message_id(message_id)` acting on the handler
state: appends to the ledger file only — the in-memory `memSet` is not
updated (the Python method only writes to the file). -/
def recordId (st : RunState) (mid : String) : RunState :=
  { st with ledgerFile := save_processed_message_id st.ledgerFile mid }

/-- `send_email` (zoho_mail_handler.py lines 264-306), session behaviour:
`connect_smtp` failing returns `False` with no session; an exception in
`send_message` is caught and returns `False`, leaving the opened session
unquit; otherwise the session is quit and the result is `True`. -/
def send_email (st : RunState) (env : MsgEnv) : Bool × RunState :=
  if env.smtpConnectOk then
    if env.sendRaises then
      (false, { st with trace := st.trace ++ [SessEvent.smtpOpen] })
    else
      (true, { st with trace := st.trace ++ [SessEvent.smtpOpen, SessEvent.smtpClose] })
  else
    (false, st)

/-- The body of the per-message loop of `process_unread_emails`
(lines 328-390): fetch, dedup check against `processed_message_ids`,
generate, send, mark read, record, append the result entry.  Returns the
updated state and the (possibly re-flagged) message. -/
def processMessage (st : RunState) (env : MsgEnv) (acct : String) (m : EmailMessage) :
    RunState × EmailMessage :=
  if env.fetchRaises then (st, m)
  else if st.memSet.contains m.messageId then (st, m)
  else
    match env.genResult with
    | none => (st, m)
    | some r =>
        if r = "" then (st, m)
        else
          match send_email st env with
          | (true, st1) =>
              if env.markReadRaises then (st1, m)
              else
                let st2 := recordId st1 m.messageId
                ({ st2 with log := st2.log ++ [mkEntry m acct true] },
                 { m with unread := false })
          | (false, st1) =>
              ({ st1 with log := st1.log ++ [mkEntry m acct false] }, m)

/-- The per-message loop over the `UNSEEN` search results: exactly the
messages flagged unread at `search` time are handled, in listing order. -/
def processMessages (acct : String) (st : RunState) :
    List (EmailMessage × MsgEnv) → RunState × List (EmailMessage × MsgEnv)
  | [] => (st, [])
  | (m, env) :: rest =>
      if m.unread then
        let p1 := processMessage st env acct m
        let p2 := processMessages acct p1.1 rest
        (p2.1, (p1.2, env) :: p2.2)
      else
        let p2 := processMessages acct st rest
        (p2.1, (m, env) :: p2.2)

/-- One configured account together with the oracle outcomes of its
account-level calls and its mailbox content. -/
structure Account where
  email : String
  imapConnectOk : Bool
  selectRaises : Bool
  messages : List (EmailMessage × MsgEnv)
deriving DecidableEq

/-- The per-account body of `process_unread_emails` (lines 314-397):
connect, select/search, per-message loop, then `close`/`logout`.  A
`connect_imap` failure skips the account with no session; an exception in
`select`/`search` is caught by the per-account `except` and skips the rest
of the account body — including the `close`/`logout` teardown. -/
def processAccount (st : RunState) (a : Account) : RunState × Account :=
  let st0 := { st with trace := st.trace ++ [SessEvent.accountStart a.email] }
  if a.imapConnectOk then
    let st1 := { st0 with trace := st0.trace ++ [SessEvent.imapOpen] }
    if a.selectRaises then (st1, a)
    else
      let p := processMessages a.email st1 a.messages
      ({ p.1 with trace := p.1.trace ++ [SessEvent.imapClose] },
       { a with messages := p.2 })
  else (st0, a)

/-- `process_unread_emails` (lines 308-403): the loop over all accounts.
Each account's body is wrapped in the per-account `try/except`, so the run
always reaches the next account and always returns. -/
def process_unread_emails (st : RunState) : List Account → RunState × List Account
  | [] => (st, [])
  | a :: rest =>
      let p1 := processAccount st a
      let p2 := process_unread_emails p1.1 rest
      (p2.1, p1.2 :: p2.2)

/-- Handler start-up state: `__init__` loads the ledger file into the
in-memory set; nothing has been logged or opened yet. -/
def initState (file : List String) : RunState :=
  { ledgerFile := file
    memSet := load_processed_message_ids file
    log := []
    trace := [] }

/-- A message will be picked up by a later `process_unread_emails` run of
the same handler: it is listed by the `UNSEEN` search and passes the dedup
test against the in-memory set. -/
def willProcess (st : RunState) (m : EmailMessage) : Prop :=
  m.unread = true ∧ st.memSet.contains m.messageId = false

/-- A message-level oracle where every external call succeeds. -/
def allOkEnv : MsgEnv :=
  { fetchRaises := false
    genResult := some "reply"
    smtpConnectOk := true
    sendRaises := false
    markReadRaises := false }

/-- Number of `imapOpen` events in a trace. -/
def nImapOpen : List SessEvent → Nat
  | [] => 0
  | SessEvent.accountStart _ :: t => nImapOpen t
  | SessEvent.imapOpen :: t => nImapOpen t + 1
  | SessEvent.imapClose :: t => nImapOpen t
  | SessEvent.smtpOpen :: t => nImapOpen t
  | SessEvent.smtpClose :: t => nImapOpen t

/-- Number of `imapClose` events in a trace. -/
def nImapClose : List SessEvent → Nat
  | [] => 0
  | SessEvent.accountStart _ :: t => nImapClose t
  | SessEvent.imapOpen :: t => nImapClose t
  | SessEvent.imapClose :: t => nImapClose t + 1
  | SessEvent.smtpOpen :: t => nImapClose t
  | SessEvent.smtpClose :: t => nImapClose t

/-- Number of `smtpOpen` events in a trace. -/
def nSmtpOpen : List SessEvent → Nat
  | [] => 0
  | SessEvent.accountStart _ :: t => nSmtpOpen t
  | SessEvent.imapOpen :: t => nSmtpOpen t
  | SessEvent.imapClose :: t => nSmtpOpen t
  | SessEvent.smtpOpen :: t => nSmtpOpen t + 1
  | SessEvent.smtpClose :: t => nSmtpOpen t

/-- Number of `smtpClose` events in a trace. -/
def nSmtpClose : List SessEvent → Nat
  | [] => 0
  | SessEvent.accountStart _ :: t => nSmtpClose t
  | SessEvent.imapOpen :: t => nSmtpClose t
  | SessEvent.imapClose :: t => nSmtpClose t
  | SessEvent.smtpOpen :: t => nSmtpClose t
  | SessEvent.smtpClose :: t => nSmtpClose t + 1

/-- A trace segment is balanced when it closes as many sessions as it
opens, for both protocols. -/
def balancedSeg (t : List SessEvent) : Prop :=
  nImapOpen t = nImapClose t ∧ nSmtpOpen t = nSmtpClose t

/-! ### The scheduler boundary (fastapi_backend.py)

`POST /check_now` (lines 170-174) hands `check_emails` to
`background_tasks.add_task` unconditionally and answers
`{"message": "Email check initiated"}`; FastAPI then runs every queued
background task after the response, with no single-flight gate.  The
scheduler's own job is configured with `max_instances = 1`
(`job_defaults`, lines 42-46), so a scheduled fire that arrives while the
job is still running is skipped. -/

/-- Observable tick state of the backend process: how many executions of
`check_emails` are currently in flight, and how many manual background
tasks are queued. -/
structure ServerState where
  running : Nat
  queued : Nat
deriving DecidableEq

/-- The `/check_now` endpoint: always queues one more background run of
`check_emails` and always returns the acknowledgment message — it never
inspects the scheduler or the in-flight state. -/
def check_now (s : ServerState) : String × ServerState :=
  ("Email check initiated", { s with queued := s.queued + 1 })

/-- FastAPI running one queued background task: the task starts
unconditionally — there is no gate against an in-flight tick. -/
def runQueuedTask (s : ServerState) : ServerState :=
  if 0 < s.queued then { running := s.running + 1, queued := s.queued - 1 } else s

/-- A scheduled fire of the `check_emails` job under the
`max_instances = 1` configuration of `job_defaults`: if an instance of the
job is still running, the fire is skipped rather than queued. -/
def scheduledFire (s : ServerState) : ServerState :=
  if 0 < s.running then s else { s with running := s.running + 1 }

/-! ### Concrete fixtures used by witnesses and counterexamples -/

/-- A fresh unread message. -/
def msgW : EmailMessage :=
  { messageId := "m1", subject := "Hello", fromAddr := "bob@y.com", body := "hi", unread := true }

/-- A second fresh unread message. -/
def msgW2 : EmailMessage :=
  { messageId := "m2", subject := "Howdy", fromAddr := "carol@y.com", body := "yo", unread := true }

/-- Oracle where `generate_response` returns `None` and everything else
would succeed. -/
def envGenNone : MsgEnv :=
  { fetchRaises := false, genResult := none, smtpConnectOk := true,
    sendRaises := false, markReadRaises := false }

/-- Oracle where `smtp.send_message` raises (send fails after the SMTP
session opened). -/
def envSendFail : MsgEnv :=
  { fetchRaises := false, genResult := some "reply", smtpConnectOk := true,
    sendRaises := true, markReadRaises := false }

/-- Oracle where the send succeeds but `mail.store(num, '+FLAGS', '\\Seen')`
raises. -/
def envMarkFail : MsgEnv :=
  { fetchRaises := false, genResult := some "reply", smtpConnectOk := true,
    sendRaises := false, markReadRaises := true }

/-- Account whose `select`/`search` raises after the IMAP session opened. -/
def acctLeakImap : Account :=
  { email := "a@x.com", imapConnectOk := true, selectRaises := true, messages := [] }

/-- Account whose single message fails at `send_message`. -/
def acctLeakSmtp : Account :=
  { email := "b@x.com", imapConnectOk := true, selectRaises := false,
    messages := [(msgW, envSendFail)] }

/-- Account where everything succeeds for its single message. -/
def acctAllOk : Account :=
  { email := "c@x.com", imapConnectOk := true, selectRaises := false,
    messages := [(msgW, allOkEnv)] }

/-- Account whose first message gets no generated reply and whose second
message succeeds. -/
def acctGenNone : Account :=
  { email := "svc@x.com", imapConnectOk := true, selectRaises := false,
    messages := [(msgW, envGenNone), (msgW2, allOkEnv)] }

/-! ### Helper lemmas about the subject rule -/

theorem replaceReRe_cons_ne (c : Char) (cs : List Char)
    (h : List.isPrefixOf reReSub (c :: cs) = false) :
    replaceReRe (c :: cs) = c :: replaceReRe cs := by
  rw [replaceReRe.eq_def]
  split
  · rename_i rest heq
    injection heq with h1 h2
    subst h1
    subst h2
    simp [reReSub, List.isPrefixOf] at h
  · rename_i c' cs' hne heq
    injection heq with h1 h2
    rw [h1, h2]
  · rename_i heq
    exact absurd heq (List.cons_ne_nil c cs)

theorem replaceReRe_noOccur (s : List Char) (h : containsSub reReSub s = false) :
    replaceReRe s = s := by
  induction s with
  | nil => rfl
  | cons c cs ih =>
    simp only [containsSub, Bool.or_eq_false_iff] at h
    rw [replaceReRe_cons_ne c cs h.1, ih h.2]

/-- Claim C4, counterexample: the reply-subject rule applied to the original
subject `"Re: Re: Hi"` yields `"Re: Re: Hi"` — a sent subject that still
starts with two `"Re:"` markers, not exactly one. -/
theorem C4_counterexample :
    replySubject "Re: Re: Hi".data = "Re: Re: Hi".data ∧
    List.isPrefixOf reReSub (replySubject "Re: Re: Hi".data) = true := by
  exact ⟨by decide, by decide⟩

/-- Claim C4 (amended): for an original subject that does not contain the
substring `"Re: Re:"`, the reply-subject rule is idempotent in its `"Re:"`
marker: a subject already starting with `"Re:"` is sent unchanged (in
particular `"Re: Hello"` yields `"Re: Hello"`), and any other such subject
gains exactly one `"Re: "` marker.  (Subjects that already contain
`"Re: Re:"` keep more than one marker, see the counterexample.) -/
theorem C4_amended (subject : List Char) (h : containsSub reReSub subject = false) :
    replySubject subject =
      if List.isPrefixOf ['R', 'e', ':'] subject then subject
      else ['R', 'e', ':', ' '] ++ subject := by
  by_cases hp : List.isPrefixOf ['R', 'e', ':'] subject = true
  · rw [if_pos hp]
    obtain ⟨u, hu⟩ := List.isPrefixOf_iff_prefix.mp hp
    subst hu
    have h2 : containsSub reReSub u = false := by
      have h' : (List.isPrefixOf [' ', 'R', 'e', ':'] u || containsSub reReSub u) = false := h
      exact (Bool.or_eq_false_iff.mp h').2
    show 'R' :: 'e' :: ':' :: replaceReRe u = 'R' :: 'e' :: ':' :: u
    rw [replaceReRe_noOccur u h2]
  · have hp' : List.isPrefixOf ['R', 'e', ':'] subject = false := by
      cases hq : List.isPrefixOf ['R', 'e', ':'] subject
      · rfl
      · exact absurd hq hp
    rw [if_neg hp]
    show replaceReRe ('R' :: 'e' :: ':' :: ' ' :: subject) = 'R' :: 'e' :: ':' :: ' ' :: subject
    apply replaceReRe_noOccur
    have hstep : containsSub reReSub ('R' :: 'e' :: ':' :: ' ' :: subject)
        = (List.isPrefixOf ['R', 'e', ':'] subject || containsSub reReSub subject) := rfl
    rw [hstep, hp', h]
    rfl

/-- Claim C4, witness: the amended theorem evaluated at the spec's own
example `"Re: Hello"`. -/
theorem C4_witness :
    containsSub reReSub "Re: Hello".data = false ∧
    replySubject "Re: Hello".data = "Re: Hello".data := by
  refine ⟨by decide, ?_⟩
  rw [C4_amended "Re: Hello".data (by decide)]
  decide

/-- Claim C9: each domain-verification sub-check yields `false` when its own
DNS resolution fails (the failure is caught at the sub-check boundary), each
sub-check's result depends only on its own DNS query, and
`verify_domain_setup` is exactly the triple of the three independent
sub-checks. -/
theorem C9_theorem :
    (∀ env d, env.resolveTXT d = Except.error () → verify_spf_record env d = false) ∧
    (∀ env d sel, env.resolveTXT (dkimDomain d sel) = Except.error () →
      verify_dkim_record env d sel = false) ∧
    (∀ env d, env.resolveMX d = Except.error () → verify_mx_records env d = false) ∧
    (∀ env env' d, env.resolveTXT d = env'.resolveTXT d →
      verify_spf_record env d = verify_spf_record env' d) ∧
    (∀ env env' d sel, env.resolveTXT (dkimDomain d sel) = env'.resolveTXT (dkimDomain d sel) →
      verify_dkim_record env d sel = verify_dkim_record env' d sel) ∧
    (∀ env env' d, env.resolveMX d = env'.resolveMX d →
      verify_mx_records env d = verify_mx_records env' d) ∧
    (∀ env d sel, verify_domain_setup env d sel =
      { spf_valid := verify_spf_record env d
        dkim_valid := verify_dkim_record env d sel
        mx_valid := verify_mx_records env d }) := by
  refine ⟨?_, ?_, ?_, ?_, ?_, ?_, ?_⟩
  · intro env d h; simp [verify_spf_record, h]
  · intro env d sel h; simp [verify_dkim_record, h]
  · intro env d h; simp [verify_mx_records, h]
  · intro env env' d h; simp [verify_spf_record, h]
  · intro env env' d sel h; simp [verify_dkim_record, h]
  · intro env env' d h; simp [verify_mx_records, h]
  · intro env d sel; rfl

/-- Claim C9, witness: a resolver that fails on every query makes all three
sub-checks `false`. -/
theorem C9_witness :
    verify_spf_record ⟨fun _ => Except.error (), fun _ => Except.error ()⟩ "example.com" = false ∧
    verify_dkim_record ⟨fun _ => Except.error (), fun _ => Except.error ()⟩ "example.com" "zoho" = false ∧
    verify_mx_records ⟨fun _ => Except.error (), fun _ => Except.error ()⟩ "example.com" = false :=
  ⟨C9_theorem.1 _ _ rfl, C9_theorem.2.1 _ _ _ rfl, C9_theorem.2.2.1 _ _ rfl⟩

/-- Claim C2, counterexample: a successful processing pass records `"m1"` in
the ledger file, yet the very next membership test inside the same process
run — `message_id in self.processed_message_ids` — still answers `false`,
because `_save_processed_message_id` never updates the in-memory set. -/
theorem C2_counterexample :
    (processMessage (initState []) allOkEnv "svc@x.com" msgW).1.ledgerFile = ["m1"] ∧
    (processMessage (initState []) allOkEnv "svc@x.com" msgW).1.memSet.contains "m1" = false := by
  exact ⟨by decide, by decide⟩

/-- Claim C2 (amended): recording an id durably appends it to the ledger
file, so after a restart — when `_load_processed_message_ids` re-reads the
file — every membership test on that id answers `true`; within the same
process run, however, `record` leaves the in-memory set untouched. -/
theorem C2_amended (st : RunState) (mid : String) (h : pyStrip mid = mid) :
    (recordId st mid).memSet = st.memSet ∧
    mid ∈ load_processed_message_ids (recordId st mid).ledgerFile := by
  constructor
  · rfl
  · show mid ∈ (save_processed_message_id st.ledgerFile mid).map pyStrip
    rw [save_processed_message_id, List.map_append]
    apply List.mem_append_right
    simp [h]

/-- Claim C2, witness: the amended theorem at the concrete id `"m1"`. -/
theorem C2_witness :
    pyStrip "m1" = "m1" ∧
    "m1" ∈ load_processed_message_ids (recordId (initState []) "m1").ledgerFile :=
  ⟨by decide, (C2_amended (initState []) "m1" (by decide)).2⟩

/-- Claim C1, counterexample: with one tick already in flight
(`running = 1`), the manual trigger `/check_now` still answers
`"Email check initiated"` and queues a background run, and starting that
queued task yields two simultaneously running ticks — the trigger is not
rejected. -/
theorem C1_counterexample :
    (check_now { running := 1, queued := 0 }).1 = "Email check initiated" ∧
    (runQueuedTask (check_now { running := 1, queued := 0 }).2).running = 2 :=
  ⟨rfl, rfl⟩

/-- Claim C1 (amended): a manual trigger via `/check_now` is never rejected —
in every state it returns the acknowledgment and queues one more background
run of the email check, independent of the in-flight count; only the
scheduled job is single-flight (a scheduled fire while an instance is
running is skipped, per `max_instances = 1`). -/
theorem C1_amended (s : ServerState) :
    (check_now s).1 = "Email check initiated" ∧
    (check_now s).2.queued = s.queued + 1 ∧
    (check_now s).2.running = s.running ∧
    (0 < s.running → scheduledFire s = s) := by
  refine ⟨rfl, rfl, rfl, ?_⟩
  intro h
  simp [scheduledFire, h]

/-- Claim C1, witness: the amended theorem at a state with a tick in
flight. -/
theorem C1_witness :
    (check_now { running := 1, queued := 5 }).2.queued = 5 + 1 ∧
    scheduledFire { running := 1, queued := 5 } = { running := 1, queued := 5 } :=
  ⟨(C1_amended { running := 1, queued := 5 }).2.1,
   (C1_amended { running := 1, queued := 5 }).2.2.2 (by decide)⟩

/-- Claim C7: a message whose identifier is already in the in-memory ledger
set when processing starts is skipped outright — the handler state (log,
ledger, trace) and the message are returned unchanged: zero sends, zero new
log entries, counted neither as sent nor as failed. -/
theorem C7_theorem (st : RunState) (env : MsgEnv) (acct : String) (m : EmailMessage)
    (h : st.memSet.contains m.messageId = true) :
    processMessage st env acct m = (st, m) := by
  have hmem : m.messageId ∈ st.memSet := by simpa using h
  simp [processMessage, hmem]

/-- Claim C7, witness: a handler started from a ledger file already holding
`"m1"` skips the message with id `"m1"` even under an all-success oracle. -/
theorem C7_witness :
    (initState ["m1"]).memSet.contains "m1" = true ∧
    processMessage (initState ["m1"]) allOkEnv "svc@x.com" msgW = (initState ["m1"], msgW) :=
  ⟨by decide, C7_theorem (initState ["m1"]) allOkEnv "svc@x.com" msgW (by decide)⟩

/-- Claim C5, counterexample: in a run over one account whose first unread
message gets no generated reply (collaborator returns `None`) and whose
second message succeeds, the result list holds only the second message's
entry — no failure is recorded for the first message, contradicting the
claim that it is counted as failed. -/
theorem C5_counterexample :
    (process_unread_emails (initState []) [acctGenNone]).1.log
      = [mkEntry msgW2 "svc@x.com" true] := by
  decide

/-- Claim C5 (amended): when the reply-generation collaborator returns no
content, the message is skipped silently — no reply is sent, the handler
state is completely unchanged (in particular no failure entry is appended
to the run's result), and processing continues with the account's next
message. -/
theorem C5_amended (st : RunState) (env : MsgEnv) (acct : String) (m : EmailMessage)
    (rest : List (EmailMessage × MsgEnv)) (h : env.genResult = none) :
    processMessage st env acct m = (st, m) ∧
    (processMessages acct st ((m, env) :: rest)).1 = (processMessages acct st rest).1 ∧
    (processMessages acct st ((m, env) :: rest)).2 = (m, env) :: (processMessages acct st rest).2 := by
  have h1 : processMessage st env acct m = (st, m) := by
    simp [processMessage, h]
  refine ⟨h1, ?_, ?_⟩ <;> cases hu : m.unread <;> simp [processMessages, hu, h1]

/-- Claim C5, witness: the amended theorem at a concrete message and state. -/
theorem C5_witness :
    envGenNone.genResult = none ∧
    processMessage (initState []) envGenNone "svc@x.com" msgW = (initState [], msgW) :=
  ⟨rfl, (C5_amended (initState []) envGenNone "svc@x.com" msgW [] rfl).1⟩

/-! ### Helper lemmas about a single message's processing -/

theorem processMessage_allOk_log (st : RunState) (acct : String) (m : EmailMessage)
    (hd : st.memSet.contains m.messageId = false) :
    (processMessage st allOkEnv acct m).1.log = st.log ++ [mkEntry m acct true] := by
  have hdm : m.messageId ∉ st.memSet := by simpa using hd
  simp [processMessage, allOkEnv, send_email, recordId, hdm]

/-- Claim C6: when the outbound send fails for a message (SMTP connect
failure or an exception in `send_message`), a log entry with
`response_sent = false` is appended, the message stays unread, its id is
added neither to the ledger file nor to the in-memory set, and the message
is picked up by the next run (it is listed as unseen, passes the dedup
test, and an all-success re-run produces its `response_sent = true`
entry). -/
theorem C6_theorem (st : RunState) (acct : String) (m : EmailMessage) (env : MsgEnv) (r : String)
    (hu : m.unread = true)
    (hf : env.fetchRaises = false)
    (hd : st.memSet.contains m.messageId = false)
    (hg : env.genResult = some r)
    (hr : ¬ r = "")
    (hs : env.smtpConnectOk = false ∨ env.sendRaises = true) :
    (processMessage st env acct m).1.log = st.log ++ [mkEntry m acct false] ∧
    (processMessage st env acct m).2 = m ∧
    (processMessage st env acct m).1.ledgerFile = st.ledgerFile ∧
    (processMessage st env acct m).1.memSet = st.memSet ∧
    willProcess (processMessage st env acct m).1 m ∧
    (processMessage (processMessage st env acct m).1 allOkEnv acct m).1.log
      = (processMessage st env acct m).1.log ++ [mkEntry m acct true] := by
  have hdm : m.messageId ∉ st.memSet := by simpa using hd
  obtain ⟨st1, hsend, hlog1, hled1, hmem1⟩ :
      ∃ st1, send_email st env = (false, st1) ∧ st1.log = st.log ∧
        st1.ledgerFile = st.ledgerFile ∧ st1.memSet = st.memSet := by
    cases hc : env.smtpConnectOk with
    | false => exact ⟨st, by simp [send_email, hc], rfl, rfl, rfl⟩
    | true =>
      rcases hs with hs | hs
      · rw [hs] at hc; exact Bool.noConfusion hc
      · exact ⟨{ st with trace := st.trace ++ [SessEvent.smtpOpen] },
          by simp [send_email, hc, hs], rfl, rfl, rfl⟩
  have hpm : processMessage st env acct m
      = ({ st1 with log := st1.log ++ [mkEntry m acct false] }, m) := by
    simp [processMessage, hf, hdm, hg, hr, hsend]
  rw [hpm]
  refine ⟨by simp [hlog1], rfl, by simp [hled1], by simp [hmem1], ⟨hu, ?_⟩, ?_⟩
  · show st1.memSet.contains m.messageId = false
    rw [hmem1]; exact hd
  · apply processMessage_allOk_log
    show st1.memSet.contains m.messageId = false
    rw [hmem1]; exact hd

/-- Claim C6, witness: the theorem at a concrete message whose
`send_message` raises. -/
theorem C6_witness :
    (processMessage (initState []) envSendFail "svc@x.com" msgW).1.log
      = (initState []).log ++ [mkEntry msgW "svc@x.com" false] ∧
    willProcess (processMessage (initState []) envSendFail "svc@x.com" msgW).1 msgW :=
  ⟨(C6_theorem (initState []) "svc@x.com" msgW envSendFail "reply"
      rfl rfl (by decide) rfl (by decide) (Or.inr rfl)).1,
   (C6_theorem (initState []) "svc@x.com" msgW envSendFail "reply"
      rfl rfl (by decide) rfl (by decide) (Or.inr rfl)).2.2.2.2.1⟩

/-- Claim C10: if, after a successful send, marking the source message as
read raises, then the id is not recorded in the ledger, no log entry is
appended, the message is still flagged unread, and it is picked up —
and replied to — again by a subsequent poll. -/
theorem C10_theorem (st : RunState) (acct : String) (m : EmailMessage) (env : MsgEnv) (r : String)
    (hu : m.unread = true)
    (hf : env.fetchRaises = false)
    (hd : st.memSet.contains m.messageId = false)
    (hg : env.genResult = some r)
    (hr : ¬ r = "")
    (hc : env.smtpConnectOk = true)
    (hsr : env.sendRaises = false)
    (hm : env.markReadRaises = true) :
    (processMessage st env acct m).1.trace
      = st.trace ++ [SessEvent.smtpOpen, SessEvent.smtpClose] ∧
    (processMessage st env acct m).1.ledgerFile = st.ledgerFile ∧
    (processMessage st env acct m).1.log = st.log ∧
    (processMessage st env acct m).2 = m ∧
    willProcess (processMessage st env acct m).1 m ∧
    (processMessage (processMessage st env acct m).1 allOkEnv acct m).1.log
      = (processMessage st env acct m).1.log ++ [mkEntry m acct true] := by
  have hdm : m.messageId ∉ st.memSet := by simpa using hd
  have hpm : processMessage st env acct m
      = ({ st with trace := st.trace ++ [SessEvent.smtpOpen, SessEvent.smtpClose] }, m) := by
    simp [processMessage, hf, hdm, hg, hr, send_email, hc, hsr, hm]
  rw [hpm]
  refine ⟨rfl, rfl, rfl, rfl, ⟨hu, ?_⟩, ?_⟩
  · show st.memSet.contains m.messageId = false
    exact hd
  · exact processMessage_allOk_log _ acct m hd

/-- Claim C10, witness: the theorem at a concrete message for which the
mark-as-read step raises after a successful send. -/
theorem C10_witness :
    (processMessage (initState []) envMarkFail "svc@x.com" msgW).1.log = (initState []).log ∧
    (processMessage (initState []) envMarkFail "svc@x.com" msgW).1.ledgerFile
      = (initState []).ledgerFile ∧
    willProcess (processMessage (initState []) envMarkFail "svc@x.com" msgW).1 msgW :=
  ⟨(C10_theorem (initState []) "svc@x.com" msgW envMarkFail "reply"
      rfl rfl (by decide) rfl (by decide) rfl rfl rfl).2.2.1,
   (C10_theorem (initState []) "svc@x.com" msgW envMarkFail "reply"
      rfl rfl (by decide) rfl (by decide) rfl rfl rfl).2.1,
   (C10_theorem (initState []) "svc@x.com" msgW envMarkFail "reply"
      rfl rfl (by decide) rfl (by decide) rfl rfl rfl).2.2.2.2.1⟩

/-! ### Trace/log bookkeeping lemmas -/

theorem nImapOpen_append (s t : List SessEvent) :
    nImapOpen (s ++ t) = nImapOpen s + nImapOpen t := by
  induction s with
  | nil => simp [nImapOpen]
  | cons e s ih => cases e <;> simp [nImapOpen, ih, Nat.add_right_comm]

theorem nImapClose_append (s t : List SessEvent) :
    nImapClose (s ++ t) = nImapClose s + nImapClose t := by
  induction s with
  | nil => simp [nImapClose]
  | cons e s ih => cases e <;> simp [nImapClose, ih, Nat.add_right_comm]

theorem nSmtpOpen_append (s t : List SessEvent) :
    nSmtpOpen (s ++ t) = nSmtpOpen s + nSmtpOpen t := by
  induction s with
  | nil => simp [nSmtpOpen]
  | cons e s ih => cases e <;> simp [nSmtpOpen, ih, Nat.add_right_comm]

theorem nSmtpClose_append (s t : List SessEvent) :
    nSmtpClose (s ++ t) = nSmtpClose s + nSmtpClose t := by
  induction s with
  | nil => simp [nSmtpClose]
  | cons e s ih => cases e <;> simp [nSmtpClose, ih, Nat.add_right_comm]

theorem balancedSeg_append {s t : List SessEvent}
    (hs : balancedSeg s) (ht : balancedSeg t) : balancedSeg (s ++ t) := by
  constructor
  · rw [nImapOpen_append, nImapClose_append, hs.1, ht.1]
  · rw [nSmtpOpen_append, nSmtpClose_append, hs.2, ht.2]

/-- Every exit of `send_email` only appends to the trace, and — when
`send_message` does not raise — the appended segment is balanced. -/
theorem send_email_shape (st : RunState) (env : MsgEnv) :
    ∃ b ts, send_email st env = (b, { st with trace := st.trace ++ ts }) ∧
      (env.sendRaises = false → balancedSeg ts) := by
  cases hc : env.smtpConnectOk with
  | false =>
    exact ⟨false, [], by simp [send_email, hc], fun _ => ⟨rfl, rfl⟩⟩
  | true =>
    cases hsr : env.sendRaises with
    | false =>
      exact ⟨true, [SessEvent.smtpOpen, SessEvent.smtpClose],
        by simp [send_email, hc, hsr], fun _ => ⟨rfl, rfl⟩⟩
    | true =>
      refine ⟨false, [SessEvent.smtpOpen], by simp [send_email, hc, hsr], ?_⟩
      intro hcontra
      exact absurd hcontra (by decide)

/-- Every exit of the per-message body only appends to ledger file, log and
trace, never touches the in-memory set, and — when `send_message` does not
raise — the appended trace segment is balanced. -/
theorem processMessage_shape (st : RunState) (env : MsgEnv) (acct : String) (m : EmailMessage) :
    ∃ ts ls lf,
      (processMessage st env acct m).1 =
        { ledgerFile := st.ledgerFile ++ lf, memSet := st.memSet,
          log := st.log ++ ls, trace := st.trace ++ ts } ∧
      (env.sendRaises = false → balancedSeg ts) := by
  obtain ⟨b, ts0, hse, hbal⟩ := send_email_shape st env
  cases hf : env.fetchRaises with
  | true => exact ⟨[], [], [], by simp [processMessage, hf], fun _ => ⟨rfl, rfl⟩⟩
  | false =>
    by_cases hd : m.messageId ∈ st.memSet
    · exact ⟨[], [], [], by simp [processMessage, hf, hd], fun _ => ⟨rfl, rfl⟩⟩
    · cases hg : env.genResult with
      | none => exact ⟨[], [], [], by simp [processMessage, hf, hd, hg], fun _ => ⟨rfl, rfl⟩⟩
      | some r =>
        by_cases hr : r = ""
        · exact ⟨[], [], [], by simp [processMessage, hf, hd, hg, hr], fun _ => ⟨rfl, rfl⟩⟩
        · cases b with
          | true =>
            cases hm : env.markReadRaises with
            | true =>
              exact ⟨ts0, [], [], by simp [processMessage, hf, hd, hg, hr, hse, hm], hbal⟩
            | false =>
              exact ⟨ts0, [mkEntry m acct true], [m.messageId],
                by simp [processMessage, hf, hd, hg, hr, hse, hm, recordId,
                  save_processed_message_id], hbal⟩
          | false =>
            exact ⟨ts0, [mkEntry m acct false], [],
              by simp [processMessage, hf, hd, hg, hr, hse], hbal⟩

/-- The per-message loop only appends, never touches the in-memory set, and
its trace segment is balanced when no send raises. -/
theorem processMessages_shape (acct : String) (msgs : List (EmailMessage × MsgEnv)) :
    ∀ st : RunState, ∃ ts ls lf,
      (processMessages acct st msgs).1 =
        { ledgerFile := st.ledgerFile ++ lf, memSet := st.memSet,
          log := st.log ++ ls, trace := st.trace ++ ts } ∧
      ((∀ p ∈ msgs, (p.2).sendRaises = false) → balancedSeg ts) := by
  induction msgs with
  | nil =>
    intro st
    exact ⟨[], [], [], by simp [processMessages], fun _ => ⟨rfl, rfl⟩⟩
  | cons p rest ih =>
    intro st
    obtain ⟨m, env⟩ := p
    cases hu : m.unread with
    | false =>
      obtain ⟨ts, ls, lf, hst, hbal⟩ := ih st
      refine ⟨ts, ls, lf, ?_, ?_⟩
      · simp [processMessages, hu, hst]
      · intro hall
        exact hbal fun q hq => hall q (List.mem_cons_of_mem _ hq)
    | true =>
      obtain ⟨ts1, ls1, lf1, h1, hb1⟩ := processMessage_shape st env acct m
      obtain ⟨ts2, ls2, lf2, h2, hb2⟩ := ih (processMessage st env acct m).1
      refine ⟨ts1 ++ ts2, ls1 ++ ls2, lf1 ++ lf2, ?_, ?_⟩
      · have hred : (processMessages acct st ((m, env) :: rest)).1
            = (processMessages acct (processMessage st env acct m).1 rest).1 := by
          simp [processMessages, hu]
        rw [hred, h2, h1]
        simp [List.append_assoc]
      · intro hall
        exact balancedSeg_append
          (hb1 (hall (m, env) (List.mem_cons_self _ _)))
          (hb2 fun q hq => hall q (List.mem_cons_of_mem _ hq))

/-- The per-account body always marks the account as attempted
(`accountStart` heads its trace segment), only appends, never touches the
in-memory set; when `select` does not raise and no send raises, the
account's trace segment is balanced. -/
theorem processAccount_shape (st : RunState) (a : Account) :
    ∃ ts ls lf,
      (processAccount st a).1 =
        { ledgerFile := st.ledgerFile ++ lf, memSet := st.memSet,
          log := st.log ++ ls,
          trace := st.trace ++ (SessEvent.accountStart a.email :: ts) } ∧
      ((a.selectRaises = false ∧ ∀ p ∈ a.messages, (p.2).sendRaises = false) →
        balancedSeg (SessEvent.accountStart a.email :: ts)) := by
  cases hc : a.imapConnectOk with
  | false =>
    exact ⟨[], [], [], by simp [processAccount, hc], fun _ => ⟨rfl, rfl⟩⟩
  | true =>
    cases hsel : a.selectRaises with
    | true =>
      refine ⟨[SessEvent.imapOpen], [], [], by simp [processAccount, hc, hsel], ?_⟩
      rintro ⟨h1, _⟩
      exact absurd h1 (by decide)
    | false =>
      obtain ⟨ts, ls, lf, h1, hb⟩ := processMessages_shape a.email a.messages
        { st with trace := (st.trace ++ [SessEvent.accountStart a.email]) ++ [SessEvent.imapOpen] }
      refine ⟨SessEvent.imapOpen :: (ts ++ [SessEvent.imapClose]), ls, lf, ?_, ?_⟩
      · simp only [processAccount, hc, hsel, if_true, if_false, Bool.false_eq_true,
          ite_false, ite_true]
        rw [h1]
        simp [List.append_assoc]
      · rintro ⟨_, hall⟩
        obtain ⟨hbi, hbs⟩ := hb hall
        constructor
        · simp [nImapOpen, nImapClose, nImapOpen_append, nImapClose_append]
          omega
        · simp [nSmtpOpen, nSmtpClose, nSmtpOpen_append, nSmtpClose_append]
          omega

/-- The full run only appends; its trace segment is balanced when no
account-level or send-level exception occurs. -/
theorem run_shape (accounts : List Account) : ∀ st : RunState,
    ∃ ts ls lf,
      (process_unread_emails st accounts).1 =
        { ledgerFile := st.ledgerFile ++ lf, memSet := st.memSet,
          log := st.log ++ ls, trace := st.trace ++ ts } ∧
      ((∀ a ∈ accounts, a.selectRaises = false ∧ ∀ p ∈ a.messages, (p.2).sendRaises = false) →
        balancedSeg ts) := by
  induction accounts with
  | nil =>
    intro st
    exact ⟨[], [], [], by simp [process_unread_emails], fun _ => ⟨rfl, rfl⟩⟩
  | cons a rest ih =>
    intro st
    obtain ⟨ts1, ls1, lf1, h1, hb1⟩ := processAccount_shape st a
    obtain ⟨ts2, ls2, lf2, h2, hb2⟩ := ih (processAccount st a).1
    refine ⟨(SessEvent.accountStart a.email :: ts1) ++ ts2, ls1 ++ ls2, lf1 ++ lf2, ?_, ?_⟩
    · have hred : (process_unread_emails st (a :: rest)).1
          = (process_unread_emails (processAccount st a).1 rest).1 := by
        simp [process_unread_emails]
      rw [hred, h2, h1]
      simp [List.append_assoc]
    · intro hall
      exact balancedSeg_append
        (hb1 (hall a (List.mem_cons_self _ _)))
        (hb2 fun b hb => hall b (List.mem_cons_of_mem _ hb))

/-- Every registered account gets its `accountStart` event, whatever the
oracles say. -/
theorem run_attempts (accounts : List Account) : ∀ st : RunState, ∀ a ∈ accounts,
    SessEvent.accountStart a.email ∈ (process_unread_emails st accounts).1.trace := by
  induction accounts with
  | nil =>
    intro st a ha
    exact absurd ha (List.not_mem_nil a)
  | cons b rest ih =>
    intro st a ha
    have hred : (process_unread_emails st (b :: rest)).1
        = (process_unread_emails (processAccount st b).1 rest).1 := by
      simp [process_unread_emails]
    rcases List.mem_cons.mp ha with rfl | ha'
    · obtain ⟨ts2, ls2, lf2, h2, _⟩ := run_shape rest (processAccount st a).1
      obtain ⟨ts1, ls1, lf1, h1, _⟩ := processAccount_shape st a
      rw [hred, h2, h1]
      simp [List.mem_append]
    · rw [hred]
      exact ih (processAccount st b).1 a ha'

/-- The run returns one outcome slot per registered account. -/
theorem run_length (accounts : List Account) : ∀ st : RunState,
    (process_unread_emails st accounts).2.length = accounts.length := by
  induction accounts with
  | nil => intro st; rfl
  | cons a rest ih => intro st; simp [process_unread_emails, ih]

/-- Claim C8: whatever the per-account and per-message oracles do — any
connection failure or exception anywhere — every registered account is
attempted (its `accountStart` event is in the final trace), the run
completes with a result log that extends the incoming log, and it returns
one outcome per account. -/
theorem C8_theorem (st : RunState) (accounts : List Account) :
    (∀ a ∈ accounts, SessEvent.accountStart a.email ∈ (process_unread_emails st accounts).1.trace) ∧
    (∃ tail, (process_unread_emails st accounts).1.log = st.log ++ tail) ∧
    (process_unread_emails st accounts).2.length = accounts.length := by
  refine ⟨run_attempts accounts st, ?_, run_length accounts st⟩
  obtain ⟨ts, ls, lf, h, _⟩ := run_shape accounts st
  exact ⟨ls, by rw [h]⟩

/-- Claim C8, witness: in a tick over a failing account followed by a
healthy one, the healthy account is still attempted and the tick returns a
summary slot for both accounts. -/
theorem C8_witness :
    SessEvent.accountStart "c@x.com" ∈
      (process_unread_emails (initState []) [acctLeakImap, acctAllOk]).1.trace ∧
    (process_unread_emails (initState []) [acctLeakImap, acctAllOk]).2.length = 2 :=
  ⟨(C8_theorem (initState []) [acctLeakImap, acctAllOk]).1 acctAllOk
      (List.mem_cons_of_mem _ (List.mem_cons_self _ _)),
   (C8_theorem (initState []) [acctLeakImap, acctAllOk]).2.2⟩

/-- Claim C3, counterexample: in a run over an account whose
`select`/`search` raises and an account whose `send_message` raises, two
IMAP sessions are opened but only one is closed, and one SMTP session is
opened but never quit — opened sessions survive the failure exit paths. -/
theorem C3_counterexample :
    nImapOpen (process_unread_emails (initState []) [acctLeakImap, acctLeakSmtp]).1.trace = 2 ∧
    nImapClose (process_unread_emails (initState []) [acctLeakImap, acctLeakSmtp]).1.trace = 1 ∧
    nSmtpOpen (process_unread_emails (initState []) [acctLeakImap, acctLeakSmtp]).1.trace = 1 ∧
    nSmtpClose (process_unread_emails (initState []) [acctLeakImap, acctLeakSmtp]).1.trace = 0 := by
  refine ⟨by decide, by decide, by decide, by decide⟩

/-- Claim C3 (amended): sessions are torn down on the non-exceptional
paths — in any run in which no account's `select`/`search` raises and no
message's `send_message` raises, the trace closes exactly as many IMAP and
SMTP sessions as it opens; the exceptional paths leak the open session
(see the counterexample). -/
theorem C3_amended (st : RunState) (accounts : List Account)
    (h : ∀ a ∈ accounts, a.selectRaises = false ∧ ∀ p ∈ a.messages, (p.2).sendRaises = false) :
    ∃ ts, (process_unread_emails st accounts).1.trace = st.trace ++ ts ∧ balancedSeg ts := by
  obtain ⟨ts, ls, lf, hst, hb⟩ := run_shape accounts st
  exact ⟨ts, by rw [hst], hb h⟩

/-- Claim C3, witness: the amended theorem on a concrete healthy account. -/
theorem C3_witness :
    (∀ a ∈ [acctAllOk], a.selectRaises = false ∧ ∀ p ∈ a.messages, (p.2).sendRaises = false) ∧
    ∃ ts, (process_unread_emails (initState []) [acctAllOk]).1.trace
        = (initState []).trace ++ ts ∧ balancedSeg ts :=
  ⟨by decide, C3_amended (initState []) [acctAllOk] (by decide)⟩
